import Mathlib

/-!
Verification of the `RequestRateTracker` fixed-window HTTP rate limiter
(src/RequestRateTracker/RequestRateTracker.{h,cpp}) against its
natural-language specification.

The C++ state is embedded shallowly:
* `RequestRate` mirrors `struct RequestRate` (`num : int`, `period : long`);
  machine integers are modelled by `Int` (no execution considered here
  overflows a 64-bit signed integer, and signed overflow is undefined
  behaviour in C++ anyway).
* `std::unordered_map<HTTPClientID, int> requestCounts` is modelled by an
  association list `List (Nat × Int)`; `std::unordered_set<HTTPClientID>
  clients` by a duplicate-free `List Nat`.  Iteration order of the hash
  containers is irrelevant to every operation of the class.
* the injected clock is modelled by passing `secSinceStart` (the value the
  code computes at lines 30-32) as an explicit argument to `addRequest`.
-/

/-- `struct RequestRate` (RequestRateTracker.h, lines 14-23):
`num : int` requests per window, `period : Seconds = long`. -/
structure RequestRate where
  num : Int
  period : Int
deriving DecidableEq, Repr

/-- State of a `RequestRateTracker` object: the members guarded by
`requestCountsMutex` plus the immutable `rateLimit`
(RequestRateTracker.h, lines 62-88). -/
structure RequestRateTracker where
  rateLimit : RequestRate
  currentWindowStart : Int
  requestCounts : List (Nat × Int)
  clients : List Nat
deriving DecidableEq, Repr

/-- `std::numeric_limits<long>::lowest()` for a 64-bit `long`
(RequestRateTracker.cpp, line 13). -/
def longLowest : Int := -(2 ^ 63)

/-- The constructor `RequestRateTracker::RequestRateTracker`
(RequestRateTracker.cpp, lines 11-16): stores `rateLimit`, sets
`currentWindowStart` to the lowest representable value, and starts with
empty `requestCounts` and `clients`.  No validation is performed. -/
def RequestRateTracker.init (rateLimit : RequestRate) : RequestRateTracker :=
  { rateLimit := rateLimit
    currentWindowStart := longLowest
    requestCounts := []
    clients := [] }

/-- Lookup in the association list modelling `requestCounts`
(`unordered_map::find`). -/
def lookupCount : List (Nat × Int) → Nat → Option Int
  | [], _ => none
  | (k, v) :: rest, client => if k = client then some v else lookupCount rest client

/-- Insert-or-update in the association list modelling `requestCounts`
(`unordered_map::operator[]` followed by an assignment). -/
def setCount : List (Nat × Int) → Nat → Int → List (Nat × Int)
  | [], client, v => [(client, v)]
  | (k, v') :: rest, client, v =>
    if k = client then (client, v) :: rest else (k, v') :: setCount rest client v

/-- The value `requestCounts[client]` reads after default-insertion:
the stored count, or `0` when the key is absent. -/
def RequestRateTracker.currentCount (s : RequestRateTracker) (client : Nat) : Int :=
  (lookupCount s.requestCounts client).getD 0

/-- `RequestRateTracker::addRequest` (RequestRateTracker.cpp, lines 22-61),
with the clock reading `secSinceStart` passed explicitly.  Returns the
`waitTime` result together with the post-call state.

* lines 37-40: if `clients` is non-empty and `client` is not a member,
  return `0` without touching the window state;
* lines 41-51: if `secSinceStart` lies in
  `[currentWindowStart, currentWindowStart + period)`, default-insert the
  client's count (`operator[]`), increment it when it is below
  `rateLimit.num`, otherwise leave it and report
  `period - (secSinceStart - currentWindowStart)`;
* lines 53-58: otherwise clear the table, align `currentWindowStart` to
  `secSinceStart - secSinceStart % period` (C++ `%` is truncated division
  remainder, `Int.tmod`), and record this client with count 1. -/
def RequestRateTracker.addRequest (s : RequestRateTracker) (client : Nat)
    (secSinceStart : Int) : Int × RequestRateTracker :=
  if s.clients ≠ [] ∧ client ∉ s.clients then
    (0, s)
  else if s.currentWindowStart ≤ secSinceStart ∧
      secSinceStart < s.currentWindowStart + s.rateLimit.period then
    let requestCount := s.currentCount client
    if requestCount < s.rateLimit.num then
      (0, { s with requestCounts := setCount s.requestCounts client (requestCount + 1) })
    else
      (s.rateLimit.period - (secSinceStart - s.currentWindowStart),
        { s with requestCounts := setCount s.requestCounts client requestCount })
  else
    (0, { s with
      currentWindowStart := secSinceStart - Int.tmod secSinceStart s.rateLimit.period
      requestCounts := [(client, 1)] })

/-- `RequestRateTracker::addClient` (RequestRateTracker.cpp, lines 90-95):
insert `id` into `clients` unless it is the invalid sentinel `0`. -/
def RequestRateTracker.addClient (s : RequestRateTracker) (id : Nat) : RequestRateTracker :=
  if id ≠ 0 then
    { s with clients := if id ∈ s.clients then s.clients else id :: s.clients }
  else s

/-- `RequestRateTracker::size` (RequestRateTracker.cpp, lines 83-88):
`requestCounts.size()`. -/
def RequestRateTracker.size (s : RequestRateTracker) : Nat :=
  s.requestCounts.length

/-- `RequestRateTracker::getRateLimit` (RequestRateTracker.h, line 54). -/
def RequestRateTracker.getRateLimit (s : RequestRateTracker) : RequestRate :=
  s.rateLimit

/-!
`RequestRateTracker::getClientId` (RequestRateTracker.cpp, lines 63-81)
runs `std::regex_search` with the ECMAScript pattern
`\b([0-9]{1,3})\.([0-9]{1,3})\.([0-9]{1,3})\.([0-9]{1,3})\b`
and, on a match, packs `stoul(group) & 0xFF` for the four groups into a
`uint32_t`, most significant first; on no match it returns `0`.

Because a digit and a literal `.` never overlap, the regex engine's greedy
matching of `[0-9]{1,3}` followed by `\.` (or by `\b`) is forced: each group
must be a *maximal* digit run of length 1-3, followed by `.` (groups 1-3)
or by a non-word character or the end of the input (group 4), and the
leading `\b` forces the character before group 1 to be a non-word character
or the start of the input.  `regex_search` reports the leftmost position at
which this succeeds.  The definitions below implement exactly that search.
-/

/-- ECMAScript word character `\w` = `[A-Za-z0-9_]`, used by `\b`. -/
def isWordChar (c : Char) : Bool :=
  c.isAlpha || c.isDigit || c = '_'

/-- `\b` immediately before a digit: the preceding character (if any) must
not be a word character. -/
def wordBoundaryBefore : Option Char → Bool
  | none => true
  | some c => !isWordChar c

/-- `\b` immediately after a digit: the following character (if any) must
not be a word character. -/
def wordBoundaryAfter : List Char → Bool
  | [] => true
  | c :: _ => !isWordChar c

/-- Split off the maximal leading run of `[0-9]` characters. -/
def splitDigits : List Char → List Char × List Char
  | [] => ([], [])
  | c :: rest =>
    if c.isDigit then
      let (ds, rest') := splitDigits rest
      (c :: ds, rest')
    else ([], c :: rest)

/-- Decimal value of a digit string (`std::stoul` on a matched group). -/
def digitsToNat (ds : List Char) : Nat :=
  ds.foldl (fun a c => a * 10 + (c.toNat - 48)) 0

/-- Match `([0-9]{1,3})\.`: a maximal digit run of length 1-3 followed by a
literal dot; returns the group's value and the rest of the input. -/
def groupThenDot (cs : List Char) : Option (Nat × List Char) :=
  let (ds, rest) := splitDigits cs
  if 1 ≤ ds.length ∧ ds.length ≤ 3 then
    match rest with
    | '.' :: rest' => some (digitsToNat ds, rest')
    | _ => none
  else none

/-- Match the final `([0-9]{1,3})\b`. -/
def lastGroup (cs : List Char) : Option Nat :=
  let (ds, rest) := splitDigits cs
  if 1 ≤ ds.length ∧ ds.length ≤ 3 ∧ wordBoundaryAfter rest then
    some (digitsToNat ds)
  else none

/-- Try to match the whole dotted-quad pattern anchored at the head of
`cs`, with `prev` the character preceding `cs` in the full input. -/
def matchQuadAt (prev : Option Char) (cs : List Char) :
    Option (Nat × Nat × Nat × Nat) :=
  if wordBoundaryBefore prev then
    match groupThenDot cs with
    | some (g1, r1) =>
      match groupThenDot r1 with
      | some (g2, r2) =>
        match groupThenDot r2 with
        | some (g3, r3) =>
          match lastGroup r3 with
          | some g4 => some (g1, g2, g3, g4)
          | none => none
        | none => none
      | none => none
    | none => none
  else none

/-- `std::regex_search`: scan positions left to right and report the
groups of the first (leftmost) match of the dotted-quad pattern. -/
def searchQuad (prev : Option Char) (cs : List Char) :
    Option (Nat × Nat × Nat × Nat) :=
  match matchQuadAt prev cs with
  | some r => some r
  | none =>
    match cs with
    | [] => none
    | c :: rest => searchQuad (some c) rest

/-- One step of the packing loop at line 78:
`clientId = (clientId << CHAR_BIT) | (stoul(results[i]) & 0xFF)` on a
`uint32_t` (`CHAR_BIT = 8`; the shift truncates modulo `2^32`). -/
def packByte (clientId g : Nat) : Nat :=
  ((clientId <<< 8) % 2 ^ 32) ||| (g &&& 0xFF)

/-- `RequestRateTracker::getClientId` (RequestRateTracker.cpp,
lines 63-81): first dotted-quad match packed byte-by-byte, `0` when the
pattern does not match. -/
def getClientId (clientAddressStr : String) : Nat :=
  match searchQuad none clientAddressStr.data with
  | none => 0
  | some (g1, g2, g3, g4) =>
    packByte (packByte (packByte (packByte 0 g1) g2) g3) g4

/-- Repeated `addRequest` calls for one client at one clock reading:
returns the list of `waitTime` results and the final state. -/
def RequestRateTracker.addRequestRun (s : RequestRateTracker) (client : Nat)
    (secSinceStart : Int) : Nat → List Int × RequestRateTracker
  | 0 => ([], s)
  | n + 1 =>
    let (w, s') := s.addRequest client secSinceStart
    let (ws, s'') := s'.addRequestRun client secSinceStart n
    (w :: ws, s'')

/-- `addRequest` calls for one client at an arbitrary list of clock
readings: the list of `waitTime` results and the final state. -/
def RequestRateTracker.addRequestList (s : RequestRateTracker) (client : Nat) :
    List Int → List Int × RequestRateTracker
  | [] => ([], s)
  | sec :: secs =>
    let (w, s') := s.addRequest client sec
    let (ws, s'') := s'.addRequestList client secs
    (w :: ws, s'')

/-- The number of distinct clients holding a nonzero count in the current
window, read off the `requestCounts` table.  This is the quantity the spec
says `size` (a.k.a. `activeClientCount`) reports. -/
def nonzeroClientCount (s : RequestRateTracker) : Nat :=
  (((s.requestCounts.filter fun p => p.2 ≠ 0).map Prod.fst).dedup).length

/-- States reachable from a freshly constructed tracker by any sequence of
`addRequest` and `addClient` calls (`size` and `getRateLimit` do not change
the state). -/
inductive Reachable (rateLimit : RequestRate) : RequestRateTracker → Prop
  | init : Reachable rateLimit (RequestRateTracker.init rateLimit)
  | addRequest (s : RequestRateTracker) (client : Nat) (sec : Int) :
      Reachable rateLimit s → Reachable rateLimit (s.addRequest client sec).2
  | addClient (s : RequestRateTracker) (id : Nat) :
      Reachable rateLimit s → Reachable rateLimit (s.addClient id)

/-- The operations of `addRequest` that touch the clock and the lock. -/
inductive LimiterEvent
  | readClock
  | acquireLock
  | touchSharedState
  | releaseLock
deriving DecidableEq, Repr

/-- Order in which one execution of `RequestRateTracker::addRequest`
performs its clock and lock operations (RequestRateTracker.cpp,
lines 29-61): `nowFunction()` is called and `secSinceStart` computed at
lines 30-32, the `Mutex::ScopedLock` is constructed at line 35, the
members `clients` / `currentWindowStart` / `requestCounts` are read and
written inside the scoped block (lines 37-58), and the lock is released
when the block exits (line 59) — also on the early `return` at line 39.
Every control path performs these four in this order. -/
def addRequestEventOrder : List LimiterEvent :=
  [LimiterEvent.readClock, LimiterEvent.acquireLock,
   LimiterEvent.touchSharedState, LimiterEvent.releaseLock]

/-! ### Association-list lemmas -/

theorem lookupCount_setCount_self (m : List (Nat × Int)) (k : Nat) (v : Int) :
    lookupCount (setCount m k v) k = some v := by
  induction m with
  | nil => simp [setCount, lookupCount]
  | cons p rest ih =>
    obtain ⟨k', v'⟩ := p
    by_cases h : k' = k <;> simp [setCount, lookupCount, h, ih]

theorem setCount_lookup_self (m : List (Nat × Int)) (k : Nat) (v : Int)
    (h : lookupCount m k = some v) : setCount m k v = m := by
  induction m with
  | nil => simp [lookupCount] at h
  | cons p rest ih =>
    obtain ⟨k', v'⟩ := p
    by_cases hk : k' = k
    · subst hk
      simp [lookupCount] at h
      simp [setCount, h]
    · simp [lookupCount, hk] at h
      simp [setCount, hk, ih h]

theorem mem_setCount (m : List (Nat × Int)) (k : Nat) (v : Int)
    (p : Nat × Int) (h : p ∈ setCount m k v) : p = (k, v) ∨ p ∈ m := by
  induction m with
  | nil => simpa [setCount] using h
  | cons q rest ih =>
    obtain ⟨k', v'⟩ := q
    by_cases hk : k' = k
    · simp [setCount, hk] at h
      rcases h with h | h
      · exact Or.inl (by simp [h])
      · exact Or.inr (List.mem_cons_of_mem _ h)
    · simp [setCount, hk] at h
      rcases h with h | h
      · exact Or.inr (by simp [h])
      · rcases ih h with h' | h'
        · exact Or.inl h'
        · exact Or.inr (List.mem_cons_of_mem _ h')

theorem lookupCount_eq_some_mem (m : List (Nat × Int)) (k : Nat) (v : Int)
    (h : lookupCount m k = some v) : (k, v) ∈ m := by
  induction m with
  | nil => simp [lookupCount] at h
  | cons q rest ih =>
    obtain ⟨k', v'⟩ := q
    by_cases hk : k' = k
    · subst hk
      simp [lookupCount] at h
      simp [h]
    · simp [lookupCount, hk] at h
      exact List.mem_cons_of_mem _ (ih h)

theorem lookupCount_eq_none_iff (m : List (Nat × Int)) (k : Nat) :
    lookupCount m k = none ↔ k ∉ m.map Prod.fst := by
  induction m with
  | nil => simp [lookupCount]
  | cons q rest ih =>
    obtain ⟨k', v'⟩ := q
    by_cases hk : k' = k
    · subst hk
      simp [lookupCount]
    · simp only [lookupCount, hk, if_false, List.map_cons, List.mem_cons, ih]
      constructor
      · intro h hmem
        rcases hmem with h1 | h1
        · exact hk h1.symm
        · exact h h1
      · intro h hmem
        exact h (Or.inr hmem)

theorem keys_setCount (m : List (Nat × Int)) (k : Nat) (v : Int) :
    (setCount m k v).map Prod.fst =
      if k ∈ m.map Prod.fst then m.map Prod.fst else m.map Prod.fst ++ [k] := by
  induction m with
  | nil => simp [setCount]
  | cons q rest ih =>
    obtain ⟨k', v'⟩ := q
    by_cases hk : k' = k
    · subst hk
      simp [setCount]
    · by_cases hmem : k ∈ rest.map Prod.fst <;>
        simp [setCount, hk, ih, hmem, Ne.symm hk]

theorem nodup_keys_setCount (m : List (Nat × Int)) (k : Nat) (v : Int)
    (h : (m.map Prod.fst).Nodup) : ((setCount m k v).map Prod.fst).Nodup := by
  rw [keys_setCount]
  by_cases hmem : k ∈ m.map Prod.fst
  · simpa [hmem] using h
  · simp only [hmem, if_false]
    simp [List.nodup_append, h, hmem]

/-! ### Branch equations for `addRequest` -/

theorem addRequest_bypass_eq (s : RequestRateTracker) (client : Nat) (sec : Int)
    (hne : s.clients ≠ []) (hnm : client ∉ s.clients) :
    s.addRequest client sec = (0, s) := by
  simp [RequestRateTracker.addRequest, hne, hnm]

theorem addRequest_allowed_eq (s : RequestRateTracker) (client : Nat) (sec : Int)
    (henf : s.clients = [] ∨ client ∈ s.clients)
    (hlo : s.currentWindowStart ≤ sec)
    (hhi : sec < s.currentWindowStart + s.rateLimit.period)
    (hlt : s.currentCount client < s.rateLimit.num) :
    s.addRequest client sec =
      (0, { s with
        requestCounts := setCount s.requestCounts client (s.currentCount client + 1) }) := by
  have hbp : ¬(s.clients ≠ [] ∧ client ∉ s.clients) := by tauto
  simp [RequestRateTracker.addRequest, hbp, hlo, hhi, hlt]

theorem lookupCount_eq_some_of_pos (s : RequestRateTracker) (client : Nat)
    (hpos : 1 ≤ s.currentCount client) :
    lookupCount s.requestCounts client = some (s.currentCount client) := by
  unfold RequestRateTracker.currentCount at *
  cases h : lookupCount s.requestCounts client with
  | none => rw [h] at hpos; simp at hpos
  | some v => simp [h]

theorem addRequest_denied_eq (s : RequestRateTracker) (client : Nat) (sec : Int)
    (henf : s.clients = [] ∨ client ∈ s.clients)
    (hnum : 1 ≤ s.rateLimit.num)
    (hlo : s.currentWindowStart ≤ sec)
    (hhi : sec < s.currentWindowStart + s.rateLimit.period)
    (hge : s.rateLimit.num ≤ s.currentCount client) :
    s.addRequest client sec =
      (s.rateLimit.period - (sec - s.currentWindowStart), s) := by
  have hbp : ¬(s.clients ≠ [] ∧ client ∉ s.clients) := by tauto
  have hnlt : ¬s.currentCount client < s.rateLimit.num := not_lt.mpr hge
  have hset : setCount s.requestCounts client (s.currentCount client) = s.requestCounts :=
    setCount_lookup_self _ _ _ (lookupCount_eq_some_of_pos s client (le_trans hnum hge))
  simp [RequestRateTracker.addRequest, hbp, hlo, hhi, hnlt, hset]

theorem addRequest_rollover_eq (s : RequestRateTracker) (client : Nat) (sec : Int)
    (henf : s.clients = [] ∨ client ∈ s.clients)
    (hout : ¬(s.currentWindowStart ≤ sec ∧
      sec < s.currentWindowStart + s.rateLimit.period)) :
    s.addRequest client sec =
      (0, { s with
        currentWindowStart := sec - Int.tmod sec s.rateLimit.period
        requestCounts := [(client, 1)] }) := by
  have hbp : ¬(s.clients ≠ [] ∧ client ∉ s.clients) := by tauto
  simp [RequestRateTracker.addRequest, hbp, hout]

/-! ### Reachability invariant -/

/-- Invariant maintained by every operation when the configured
`rateLimit.num` is at least 1: the stored configuration is the
construction-time one, the keys of `requestCounts` are distinct, and every
stored count lies in `[1, rateLimit.num]`. -/
def WellFormed (rateLimit : RequestRate) (s : RequestRateTracker) : Prop :=
  s.rateLimit = rateLimit ∧
  (s.requestCounts.map Prod.fst).Nodup ∧
  ∀ p ∈ s.requestCounts, 1 ≤ p.2 ∧ p.2 ≤ rateLimit.num

theorem currentCount_nonneg (rateLimit : RequestRate) (s : RequestRateTracker)
    (client : Nat)
    (h3 : ∀ p ∈ s.requestCounts, 1 ≤ p.2 ∧ p.2 ≤ rateLimit.num) :
    0 ≤ s.currentCount client := by
  unfold RequestRateTracker.currentCount
  cases hc : lookupCount s.requestCounts client with
  | none => simp
  | some v =>
    have := (h3 _ (lookupCount_eq_some_mem _ _ _ hc)).1
    simp only [Option.getD_some]
    omega

theorem wellFormed_init (rateLimit : RequestRate) :
    WellFormed rateLimit (RequestRateTracker.init rateLimit) :=
  ⟨rfl, by simp [RequestRateTracker.init], by simp [RequestRateTracker.init]⟩

theorem wellFormed_addClient (rateLimit : RequestRate) (s : RequestRateTracker)
    (id : Nat) (h : WellFormed rateLimit s) :
    WellFormed rateLimit (s.addClient id) := by
  obtain ⟨h1, h2, h3⟩ := h
  unfold RequestRateTracker.addClient
  split <;> exact ⟨h1, h2, h3⟩

theorem wellFormed_addRequest (rateLimit : RequestRate) (s : RequestRateTracker)
    (client : Nat) (sec : Int) (hnum : 1 ≤ rateLimit.num)
    (h : WellFormed rateLimit s) :
    WellFormed rateLimit (s.addRequest client sec).2 := by
  obtain ⟨h1, h2, h3⟩ := h
  by_cases hbp : s.clients ≠ [] ∧ client ∉ s.clients
  · rw [addRequest_bypass_eq s client sec hbp.1 hbp.2]
    exact ⟨h1, h2, h3⟩
  · have henf : s.clients = [] ∨ client ∈ s.clients := by tauto
    by_cases hwin : s.currentWindowStart ≤ sec ∧
        sec < s.currentWindowStart + s.rateLimit.period
    · by_cases hlt : s.currentCount client < s.rateLimit.num
      · rw [addRequest_allowed_eq s client sec henf hwin.1 hwin.2 hlt]
        refine ⟨h1, nodup_keys_setCount _ _ _ h2, ?_⟩
        intro p hp
        rcases mem_setCount _ _ _ _ hp with hp' | hp'
        · have hc0 : 0 ≤ s.currentCount client := currentCount_nonneg rateLimit s client h3
          rw [h1] at hlt
          subst hp'
          exact ⟨by omega, by omega⟩
        · exact h3 p hp'
      · rw [addRequest_denied_eq s client sec henf (by rw [h1]; exact hnum) hwin.1 hwin.2
          (not_lt.mp hlt)]
        exact ⟨h1, h2, h3⟩
    · rw [addRequest_rollover_eq s client sec henf hwin]
      refine ⟨h1, by simp, ?_⟩
      intro p hp
      simp only [List.mem_singleton] at hp
      subst hp
      exact ⟨le_refl 1, hnum⟩

theorem reachable_wellFormed (rateLimit : RequestRate) (s : RequestRateTracker)
    (hnum : 1 ≤ rateLimit.num) (h : Reachable rateLimit s) :
    WellFormed rateLimit s := by
  induction h with
  | init => exact wellFormed_init rateLimit
  | addRequest s' client sec _ ih => exact wellFormed_addRequest rateLimit s' client sec hnum ih
  | addClient s' id _ ih => exact wellFormed_addClient rateLimit s' id ih

theorem size_eq_nonzeroClientCount_of_wellFormed (rateLimit : RequestRate)
    (s : RequestRateTracker) (h : WellFormed rateLimit s) :
    s.size = nonzeroClientCount s := by
  obtain ⟨h1, h2, h3⟩ := h
  unfold nonzeroClientCount RequestRateTracker.size
  have hfilter : (s.requestCounts.filter fun p => p.2 ≠ 0) = s.requestCounts := by
    apply List.filter_eq_self.mpr
    intro p hp
    have := (h3 p hp).1
    simp only [ne_eq, decide_not, Bool.not_eq_false']
    simpa using by omega
  rw [hfilter, List.Nodup.dedup h2, List.length_map]

/-! ### Runs of `addRequest` -/

theorem addRequestRun_allowed (client : Nat) (sec : Int) :
    ∀ (k : Nat) (s : RequestRateTracker),
      (s.clients = [] ∨ client ∈ s.clients) →
      s.currentWindowStart ≤ sec →
      sec < s.currentWindowStart + s.rateLimit.period →
      s.currentCount client + k ≤ s.rateLimit.num →
      (s.addRequestRun client sec k).1 = List.replicate k 0 ∧
      (s.addRequestRun client sec k).2.rateLimit = s.rateLimit ∧
      (s.addRequestRun client sec k).2.currentWindowStart = s.currentWindowStart ∧
      (s.addRequestRun client sec k).2.clients = s.clients ∧
      (s.addRequestRun client sec k).2.currentCount client =
        s.currentCount client + k := by
  intro k
  induction k with
  | zero =>
    intro s _ _ _ _
    simp [RequestRateTracker.addRequestRun]
  | succ n ih =>
    intro s henf hlo hhi hcnt
    have hlt : s.currentCount client < s.rateLimit.num := by omega
    have hstep := addRequest_allowed_eq s client sec henf hlo hhi hlt
    have hrun : s.addRequestRun client sec (n + 1) =
        ((0 : Int) :: ((s.addRequest client sec).2.addRequestRun client sec n).1,
          ((s.addRequest client sec).2.addRequestRun client sec n).2) := by
      simp [RequestRateTracker.addRequestRun, hstep]
    set s' := (s.addRequest client sec).2 with hs'
    have hfields : s'.rateLimit = s.rateLimit ∧ s'.currentWindowStart = s.currentWindowStart ∧
        s'.clients = s.clients := by
      rw [hs', hstep]
      exact ⟨rfl, rfl, rfl⟩
    have hcount' : s'.currentCount client = s.currentCount client + 1 := by
      rw [hs', hstep]
      simp only [RequestRateTracker.currentCount]
      rw [lookupCount_setCount_self]
      rfl
    have ih' := ih s' (by rw [hfields.2.2]; exact henf)
      (by rw [hfields.2.1]; exact hlo)
      (by rw [hfields.2.1, hfields.1]; exact hhi)
      (by rw [hcount', hfields.1]; omega)
    rw [hrun]
    refine ⟨?_, ?_, ?_, ?_, ?_⟩
    · simp [List.replicate_succ, ih'.1]
    · rw [ih'.2.1, hfields.1]
    · rw [ih'.2.2.1, hfields.2.1]
    · rw [ih'.2.2.2.1, hfields.2.2]
    · rw [ih'.2.2.2.2, hcount']
      omega

theorem addRequestRun_succ_eq (client : Nat) (sec : Int) :
    ∀ (k : Nat) (s : RequestRateTracker),
      s.addRequestRun client sec (k + 1) =
        ((s.addRequestRun client sec k).1 ++
            [((s.addRequestRun client sec k).2.addRequest client sec).1],
          ((s.addRequestRun client sec k).2.addRequest client sec).2) := by
  intro k
  induction k with
  | zero =>
    intro s
    simp [RequestRateTracker.addRequestRun]
  | succ n ih =>
    intro s
    have h1 : s.addRequestRun client sec (n + 1 + 1) =
        (((s.addRequest client sec).1 ::
            ((s.addRequest client sec).2.addRequestRun client sec (n + 1)).1),
          ((s.addRequest client sec).2.addRequestRun client sec (n + 1)).2) := by
      simp [RequestRateTracker.addRequestRun]
    have h2 : s.addRequestRun client sec (n + 1) =
        (((s.addRequest client sec).1 ::
            ((s.addRequest client sec).2.addRequestRun client sec n).1),
          ((s.addRequest client sec).2.addRequestRun client sec n).2) := by
      simp [RequestRateTracker.addRequestRun]
    rw [h1, ih ((s.addRequest client sec).2), h2]
    simp

/-! ### Packing arithmetic for `getClientId` -/

theorem shiftLeft_lor_eq_add (x y : Nat) (h : y < 256) :
    (x <<< 8) ||| y = x * 256 + y := by
  apply Nat.eq_of_testBit_eq
  intro i
  rw [Nat.testBit_lor, Nat.testBit_shiftLeft]
  rcases Nat.lt_or_ge i 8 with hi | hi
  · have h2 : (x * 256 + y) % 2 ^ 8 = y := by omega
    have h3 : y.testBit i = (decide (i < 8) && (x * 256 + y).testBit i) := by
      rw [← Nat.testBit_mod_two_pow, h2]
    rw [h3]
    simp [hi, Nat.not_le_of_lt hi]
  · have hsplit : (2 : Nat) ^ i = 2 ^ 8 * 2 ^ (i - 8) := by
      rw [← pow_add]
      congr 1
      omega
    have h4 : (x * 256 + y) / 2 ^ i = x / 2 ^ (i - 8) := by
      rw [hsplit, ← Nat.div_div_eq_div_mul]
      congr 1
      omega
    have h5 : (x * 256 + y).testBit i = x.testBit (i - 8) := by
      rw [Nat.testBit_to_div_mod, Nat.testBit_to_div_mod, h4]
    have h6 : y.testBit i = false := by
      apply Nat.testBit_lt_two_pow
      calc y < 256 := h
        _ = 2 ^ 8 := by norm_num
        _ ≤ 2 ^ i := Nat.pow_le_pow_right (by norm_num) hi
    rw [h5, h6]
    simp [hi]

theorem and_255_eq_mod (g : Nat) : g &&& 0xFF = g % 256 := by
  have h : (0xFF : Nat) = 2 ^ 8 - 1 := by norm_num
  rw [h, Nat.and_pow_two_sub_one_eq_mod]

theorem packByte_eq (c g : Nat) (hc : c < 2 ^ 24) :
    packByte c g = c * 256 + g % 256 := by
  unfold packByte
  have h1 : c <<< 8 = c * 256 := by
    rw [Nat.shiftLeft_eq]
  have h2 : c * 256 < 2 ^ 32 := by
    calc c * 256 < 2 ^ 24 * 256 := by omega
      _ = 2 ^ 32 := by norm_num
  rw [h1, Nat.mod_eq_of_lt h2, and_255_eq_mod]
  have h3 := shiftLeft_lor_eq_add c (g % 256) (Nat.mod_lt g (by norm_num))
  rw [h1] at h3
  exact h3

theorem pack_quad_eq (g1 g2 g3 g4 : Nat) :
    packByte (packByte (packByte (packByte 0 g1) g2) g3) g4 =
      ((g1 % 256 * 256 + g2 % 256) * 256 + g3 % 256) * 256 + g4 % 256 := by
  have e1 : packByte 0 g1 = g1 % 256 := by
    rw [packByte_eq 0 g1 (by norm_num)]
    omega
  have hb1 : g1 % 256 < 2 ^ 24 := by
    have := Nat.mod_lt g1 (y := 256) (by norm_num)
    omega
  have e2 : packByte (g1 % 256) g2 = g1 % 256 * 256 + g2 % 256 :=
    packByte_eq _ _ hb1
  have hb2 : g1 % 256 * 256 + g2 % 256 < 2 ^ 24 := by
    have m1 := Nat.mod_lt g1 (y := 256) (by norm_num)
    have m2 := Nat.mod_lt g2 (y := 256) (by norm_num)
    omega
  have e3 : packByte (g1 % 256 * 256 + g2 % 256) g3 =
      (g1 % 256 * 256 + g2 % 256) * 256 + g3 % 256 :=
    packByte_eq _ _ hb2
  have hb3 : (g1 % 256 * 256 + g2 % 256) * 256 + g3 % 256 < 2 ^ 24 := by
    have m1 := Nat.mod_lt g1 (y := 256) (by norm_num)
    have m2 := Nat.mod_lt g2 (y := 256) (by norm_num)
    have m3 := Nat.mod_lt g3 (y := 256) (by norm_num)
    omega
  rw [e1, e2, e3, packByte_eq _ _ hb3]

/-! ### Claim theorems -/

/-- C1: for an enforced client (tracked set empty or the id a member) and a
call inside the current window, a count below `rateLimit.num` is
incremented and the call returns 0; a count at or above `rateLimit.num`
yields `period - (secSinceStart - currentWindowStart)` — the seconds
remaining in the window — with the state unchanged; consequently a client
with no count yet gets its first `num` requests allowed and the
`(num + 1)`-th denied with exactly that wait. -/
theorem addRequest_within_window_spec (s : RequestRateTracker) (client : Nat) (sec : Int)
    (henf : s.clients = [] ∨ client ∈ s.clients)
    (hnum : 1 ≤ s.rateLimit.num)
    (hlo : s.currentWindowStart ≤ sec)
    (hhi : sec < s.currentWindowStart + s.rateLimit.period) :
    (s.currentCount client < s.rateLimit.num →
      s.addRequest client sec =
        (0, { s with
          requestCounts := setCount s.requestCounts client (s.currentCount client + 1) })) ∧
    (s.rateLimit.num ≤ s.currentCount client →
      s.addRequest client sec =
        (s.rateLimit.period - (sec - s.currentWindowStart), s)) ∧
    (∀ k : Nat, s.currentCount client = 0 → (k : Int) = s.rateLimit.num →
      (s.addRequestRun client sec (k + 1)).1 =
        List.replicate k 0 ++ [s.rateLimit.period - (sec - s.currentWindowStart)]) := by
  refine ⟨fun hlt => addRequest_allowed_eq s client sec henf hlo hhi hlt,
    fun hge => addRequest_denied_eq s client sec henf hnum hlo hhi hge, ?_⟩
  intro k hc0 hkN
  have hrun := addRequestRun_allowed client sec k s henf hlo hhi (by omega)
  obtain ⟨hres, hrl, hws, hcl, hcc⟩ := hrun
  set s' := (s.addRequestRun client sec k).2 with hs'
  have hge' : s'.rateLimit.num ≤ s'.currentCount client := by
    rw [hrl, hcc, hc0]
    omega
  have hdeny := addRequest_denied_eq s' client sec
    (by rw [hcl]; exact henf)
    (by rw [hrl]; exact hnum)
    (by rw [hws]; exact hlo)
    (by rw [hws, hrl]; exact hhi)
    hge'
  rw [addRequestRun_succ_eq client sec k s, hres, ← hs', hdeny, hrl, hws]

/-- Witness for C1 at the spec's concrete scenario: config
`{num = 2, period = 10}`, window `[0, 10)`, three requests from client 33
at `t = 0` produce waits `[0, 0, 10]`. -/
theorem addRequest_within_window_spec_witness :
    (RequestRateTracker.addRequestRun ⟨⟨2, 10⟩, 0, [], []⟩ 33 0 3).1 = [0, 0, 10] := by
  have h := (addRequest_within_window_spec ⟨⟨2, 10⟩, 0, [], []⟩ 33 0 (Or.inl rfl)
    (by decide) (by decide) (by decide)).2.2 2 (by decide) (by decide)
  simpa using h

/-- C2: for an enforced client, a call whose elapsed time falls outside
`[currentWindowStart, currentWindowStart + period)` clears the whole
counts table, realigns `currentWindowStart` to
`secSinceStart - secSinceStart % period`, records this client with count
1 and returns 0; in particular the first request on a freshly constructed
tracker (whose `currentWindowStart` starts at the lowest `long` value)
always returns 0. -/
theorem addRequest_rollover_spec (s : RequestRateTracker) (client : Nat) (sec : Int)
    (henf : s.clients = [] ∨ client ∈ s.clients)
    (hout : ¬(s.currentWindowStart ≤ sec ∧
      sec < s.currentWindowStart + s.rateLimit.period)) :
    s.addRequest client sec =
      (0, { s with
        currentWindowStart := sec - Int.tmod sec s.rateLimit.period
        requestCounts := [(client, 1)] }) ∧
    ∀ (rateLimit : RequestRate) (c : Nat) (t : Int),
      0 ≤ t → rateLimit.period ≤ 2 ^ 63 →
      ((RequestRateTracker.init rateLimit).addRequest c t).1 = 0 := by
  constructor
  · exact addRequest_rollover_eq s client sec henf hout
  · intro rateLimit c t ht hper
    have hout' : ¬((RequestRateTracker.init rateLimit).currentWindowStart ≤ t ∧
        t < (RequestRateTracker.init rateLimit).currentWindowStart +
          (RequestRateTracker.init rateLimit).rateLimit.period) := by
      intro hcontra
      have h2 := hcontra.2
      simp only [RequestRateTracker.init, longLowest] at h2
      omega
    rw [addRequest_rollover_eq (RequestRateTracker.init rateLimit) c t (Or.inl rfl) hout']

/-- Witness for C2: on a fresh tracker with config `{num = 2, period = 10}`
a first request from client 33 at `t = 9` rolls the window to `[0, 10)`,
records count 1 and is allowed. -/
theorem addRequest_rollover_spec_witness :
    (RequestRateTracker.init ⟨2, 10⟩).addRequest 33 9 =
      (0, ⟨⟨2, 10⟩, 0, [(33, 1)], []⟩) := by
  have h := (addRequest_rollover_spec (RequestRateTracker.init ⟨2, 10⟩) 33 9
    (Or.inl rfl) (by decide)).1
  simpa using h

/-- C3 (code bug): the constructor performs no validation whatsoever.
It accepts `num = 0, period = 0` and produces a working state; the first
`addRequest` on it then evaluates `secSinceStart % 0` (undefined behaviour
for the C++ `%`; in the `Int.tmod` model `t.tmod 0 = t`) and *allows* the
request even though the configured budget is zero. -/
theorem init_accepts_invalid_config :
    RequestRateTracker.init ⟨0, 0⟩ =
      ⟨⟨0, 0⟩, longLowest, [], []⟩ ∧
    (RequestRateTracker.init ⟨0, 0⟩).addRequest 33 5 =
      (0, ⟨⟨0, 0⟩, 0, [(33, 1)], []⟩) := by
  constructor
  · rfl
  · decide

/-- C4 counterexample: the input `"300.0.0.1"`, whose only dotted-quad
pattern has the out-of-range group `300`, is *not* mapped to the sentinel
0. -/
theorem getClientId_oversized_octet_not_rejected :
    getClientId "300.0.0.1" ≠ 0 := by decide

/-- C4 (amended): a matched 1-3 digit group is never validated against
255; `stoul(group) & 0xFF` packs the group's value reduced mod 256, so an
input whose dotted-quad pattern has a group above 255 yields the packed
masked identity instead of the sentinel 0.  In particular
`getClientId "300.0.0.1" = 0x2C000001` (`300 & 0xFF = 0x2C`) and
`getClientId "999.999.999.999" = 0xE7E7E7E7`. -/
theorem getClientId_masks_octets :
    (∀ (s : String) (g1 g2 g3 g4 : Nat),
      searchQuad none s.data = some (g1, g2, g3, g4) →
      getClientId s =
        ((g1 % 256 * 256 + g2 % 256) * 256 + g3 % 256) * 256 + g4 % 256) ∧
    getClientId "300.0.0.1" = 0x2C000001 ∧
    getClientId "999.999.999.999" = 0xE7E7E7E7 := by
  refine ⟨?_, by decide, by decide⟩
  intro s g1 g2 g3 g4 h
  unfold getClientId
  rw [h]
  exact pack_quad_eq g1 g2 g3 g4

/-- Witness for C4's amended statement at `"300.0.0.1"`: the regex matches
with groups `(300, 0, 0, 1)` and the packed masked identity is returned. -/
theorem getClientId_masks_octets_witness :
    getClientId "300.0.0.1" =
      ((300 % 256 * 256 + 0 % 256) * 256 + 0 % 256) * 256 + 1 % 256 :=
  getClientId_masks_octets.1 "300.0.0.1" 300 0 0 1 (by decide)

/-- C5: when the tracked set is non-empty and the client is not a member,
`addRequest` returns 0 and leaves the state — `currentWindowStart` and
`requestCounts` included — completely unchanged, for a single call and
for any sequence of calls. -/
theorem addRequest_untracked_bypass (s : RequestRateTracker) (client : Nat) (sec : Int)
    (hne : s.clients ≠ []) (hnm : client ∉ s.clients) :
    s.addRequest client sec = (0, s) ∧
    ∀ secs : List Int,
      s.addRequestList client secs = (secs.map fun _ => (0 : Int), s) := by
  constructor
  · exact addRequest_bypass_eq s client sec hne hnm
  · intro secs
    induction secs with
    | nil => simp [RequestRateTracker.addRequestList]
    | cons t ts ih =>
      simp [RequestRateTracker.addRequestList, addRequest_bypass_eq s client t hne hnm, ih]

/-- Witness for C5: with tracked set `{7}`, client 33 issues four requests
at various times; every result is 0 and the state is untouched. -/
theorem addRequest_untracked_bypass_witness :
    RequestRateTracker.addRequestList ⟨⟨2, 10⟩, 0, [(7, 2)], [7]⟩ 33 [1, 2, 3, 50] =
      ([0, 0, 0, 0], ⟨⟨2, 10⟩, 0, [(7, 2)], [7]⟩) := by
  have h := (addRequest_untracked_bypass ⟨⟨2, 10⟩, 0, [(7, 2)], [7]⟩ 33 0
    (by decide) (by decide)).2 [1, 2, 3, 50]
  simpa using h

/-- C6: boundary burst of the fixed-window algorithm, the documented
behaviour to preserve: with config `{num = 2, period = 10}` and the clock
starting at 0, two requests from client 33 at `t = 9` are allowed
(window `[0, 10)`), and a third at `t = 12` opens window `[10, 20)` and is
allowed as well — three allowed requests in a 3-second span (the original
sliding-window test expectation of wait 2 does not hold). -/
theorem fixed_window_boundary_burst :
    ((RequestRateTracker.init ⟨2, 10⟩).addRequest 33 9).1 = 0 ∧
    (((RequestRateTracker.init ⟨2, 10⟩).addRequest 33 9).2.addRequest 33 9).1 = 0 ∧
    ((((RequestRateTracker.init ⟨2, 10⟩).addRequest 33 9).2.addRequest 33 9).2.addRequest
      33 12).1 = 0 ∧
    ((((RequestRateTracker.init ⟨2, 10⟩).addRequest 33 9).2.addRequest 33 9).2.addRequest
      33 12).2.currentWindowStart = 10 := by
  decide

/-- C7: `getClientId` packs the four octets of a well-formed dotted quad
most significant first (for in-range groups the masking is the identity),
and returns 0 whenever the pattern does not match; in particular
`getClientId "127.0.0.1" = 0x7F000001` and
`getClientId "127.0.XXX.XXX" = 0`. -/
theorem getClientId_packs_msb_first :
    (∀ (s : String) (g1 g2 g3 g4 : Nat),
      searchQuad none s.data = some (g1, g2, g3, g4) →
      g1 ≤ 255 → g2 ≤ 255 → g3 ≤ 255 → g4 ≤ 255 →
      getClientId s = g1 * 2 ^ 24 + g2 * 2 ^ 16 + g3 * 2 ^ 8 + g4) ∧
    (∀ s : String, searchQuad none s.data = none → getClientId s = 0) ∧
    getClientId "127.0.0.1" = 0x7F000001 ∧
    getClientId "127.0.XXX.XXX" = 0 := by
  refine ⟨?_, ?_, by decide, by decide⟩
  · intro s g1 g2 g3 g4 h h1 h2 h3 h4
    unfold getClientId
    rw [h]
    show packByte (packByte (packByte (packByte 0 g1) g2) g3) g4 = _
    rw [pack_quad_eq, Nat.mod_eq_of_lt (by omega : g1 < 256),
      Nat.mod_eq_of_lt (by omega : g2 < 256), Nat.mod_eq_of_lt (by omega : g3 < 256),
      Nat.mod_eq_of_lt (by omega : g4 < 256)]
    ring
  · intro s h
    unfold getClientId
    rw [h]

/-- Witness for C7 at `"127.0.0.1"`: groups `(127, 0, 0, 1)` are in range
and pack to `0x7F000001`. -/
theorem getClientId_packs_msb_first_witness :
    getClientId "127.0.0.1" = 127 * 2 ^ 24 + 0 * 2 ^ 16 + 0 * 2 ^ 8 + 1 :=
  getClientId_packs_msb_first.1 "127.0.0.1" 127 0 0 1 (by decide)
    (by decide) (by decide) (by decide) (by decide)

/-- C8: in every reachable state of a tracker configured with
`rateLimit.num ≥ 1`, `size()` equals the number of distinct clients with a
nonzero count in the current window; and when a request from an enforced
client triggers a rollover, the resulting state's `size()` is 1 — only the
client counted since the rollover remains, the old entries having been
discarded. -/
theorem size_counts_current_window (rateLimit : RequestRate) (s : RequestRateTracker)
    (hnum : 1 ≤ rateLimit.num) (hr : Reachable rateLimit s) :
    s.size = nonzeroClientCount s ∧
    ∀ (client : Nat) (sec : Int),
      (s.clients = [] ∨ client ∈ s.clients) →
      ¬(s.currentWindowStart ≤ sec ∧
        sec < s.currentWindowStart + s.rateLimit.period) →
      ((s.addRequest client sec).2).size = 1 := by
  have hwf := reachable_wellFormed rateLimit s hnum hr
  constructor
  · exact size_eq_nonzeroClientCount_of_wellFormed rateLimit s hwf
  · intro client sec henf hout
    rw [addRequest_rollover_eq s client sec henf hout]
    rfl

/-- Witness for C8: after requests from clients 11 and 22 at `t = 3`, the
reachable state holds two nonzero counts and `size` agrees; a request from
client 33 at `t = 13` rolls the window over and `size` drops to 1. -/
theorem size_counts_current_window_witness :
    ((((RequestRateTracker.init ⟨2, 10⟩).addRequest 11 3).2.addRequest 22 3).2).size =
      nonzeroClientCount (((RequestRateTracker.init ⟨2, 10⟩).addRequest 11 3).2.addRequest
        22 3).2 ∧
    ((((((RequestRateTracker.init ⟨2, 10⟩).addRequest 11 3).2.addRequest
      22 3).2).addRequest 33 13).2).size = 1 := by
  have h := size_counts_current_window ⟨2, 10⟩
    (((RequestRateTracker.init ⟨2, 10⟩).addRequest 11 3).2.addRequest 22 3).2
    (by decide)
    (Reachable.addRequest _ 22 3 (Reachable.addRequest _ 11 3 (Reachable.init)))
  exact ⟨h.1, h.2 33 13 (Or.inl (by decide)) (by decide)⟩

/-- C9: invariant — in every state reachable under a configuration with
`rateLimit.num ≥ 1`, every entry of the `requestCounts` table holds a
value between 1 and `rateLimit.num` inclusive: a denied request never
pushes a count past the limit, and no entry is ever left at 0. -/
theorem requestCounts_bounded (rateLimit : RequestRate) (s : RequestRateTracker)
    (hnum : 1 ≤ rateLimit.num) (hr : Reachable rateLimit s) :
    ∀ p ∈ s.requestCounts, 1 ≤ p.2 ∧ p.2 ≤ rateLimit.num :=
  (reachable_wellFormed rateLimit s hnum hr).2.2

/-- Witness for C9: after three requests from client 33 at `t = 0` (the
third one denied) the table holds the entry `(33, 2)`, whose count lies
within `[1, 2]`. -/
theorem requestCounts_bounded_witness :
    1 ≤ ((33, 2) : Nat × Int).2 ∧ ((33, 2) : Nat × Int).2 ≤ (2 : Int) :=
  requestCounts_bounded ⟨2, 10⟩
    ((((RequestRateTracker.init ⟨2, 10⟩).addRequest 33 0).2.addRequest
      33 0).2.addRequest 33 0).2
    (by decide)
    (Reachable.addRequest _ 33 0 (Reachable.addRequest _ 33 0
      (Reachable.addRequest _ 33 0 (Reachable.init))))
    (33, 2) (by decide)

/-- C10 counterexample: in `addRequest` the clock is *not* read while the
lock is held — `nowFunction()` runs at line 30, before the
`Mutex::ScopedLock` is constructed at line 35, so the lock acquisition
does not precede the clock read. -/
theorem clock_read_not_under_lock :
    ¬ addRequestEventOrder.indexOf LimiterEvent.acquireLock <
        addRequestEventOrder.indexOf LimiterEvent.readClock := by
  decide

/-- C10 (amended): every execution of `addRequest` reads the clock and
computes `secSinceStart` *before* acquiring the exclusive lock guarding
`currentWindowStart`, `requestCounts` and `clients`; the shared state is
then accessed between acquisition and release.  Two concurrent callers can
therefore compute `elapsed` values that straddle a rollover decision. -/
theorem clock_read_before_lock :
    addRequestEventOrder.indexOf LimiterEvent.readClock <
      addRequestEventOrder.indexOf LimiterEvent.acquireLock ∧
    addRequestEventOrder.indexOf LimiterEvent.acquireLock <
      addRequestEventOrder.indexOf LimiterEvent.touchSharedState ∧
    addRequestEventOrder.indexOf LimiterEvent.touchSharedState <
      addRequestEventOrder.indexOf LimiterEvent.releaseLock := by
  decide
